import Mathlib

/-!
Verification of the durable agent execution runtime of this repository.

The definitions below are a shallow embedding of the TypeScript sources:

* `shouldContinueExecution`, `executeStepTail`, `rejectionHandler` come from
  the `POST /execute-step` route (`src/unnamed/part_000`);
* `QueueService.calculateDelay` comes from
  `src/server/services/queue/QueueService.ts`;
* the four streaming executors come from
  `src/server/modules/AgentRuntime/StreamingExecutors.ts`;
* `DurableLobeChatAgent.runner` comes from
  `src/server/modules/AgentRuntime/DurableLobeChatAgent.ts`;
* `processIntervention` comes from the human-intervention route
  (`src/unnamed/part_003`);
* `sseFrames` comes from the SSE route
  (`src/app/(backend)/api/agent/stream/route.ts`);
* the `AgentStateManager` result models come from the behaviour pinned by
  `AgentStateManager.test.ts` (the implementation itself is not among the
  analysed sources).

JavaScript numbers that carry money amounts are embedded as `Rat`; machine
integers that are only counted (step indices, delays) are embedded as `Nat`.
Exceptions are embedded as `Except String`.
-/

namespace LobeAgent

/-- Session status, `status` field of the agent state. -/
inductive AgentStatus where
  | idle
  | running
  | waitingForHumanInput
  | done
  | error
  | interrupted
deriving DecidableEq, Repr

/-- `on_exceeded` policy of a cost limit. `continueRun` embeds the source
string literal "continue" (a Lean keyword). -/
inductive OnExceeded where
  | stop
  | interrupt
  | continueRun
deriving DecidableEq, Repr

/-- `cost_limit` blob of the agent state. -/
structure CostLimit where
  maxTotalCost : Rat
  onExceeded : OnExceeded
deriving DecidableEq, Repr

/-- Accumulated `cost` counters of the agent state. -/
structure Cost where
  total : Rat
deriving DecidableEq, Repr

/-- `function` part of a tool call. -/
structure ToolFunction where
  name : String
  arguments : String
deriving DecidableEq, Repr

/-- One tool call, as carried by LLM results and pending approvals. -/
structure ToolCall where
  id : String
  function : ToolFunction
deriving DecidableEq, Repr

/-- Message role. -/
inductive Role where
  | user
  | assistant
  | tool
  | system
deriving DecidableEq, Repr

/-- One chat message of the session state. -/
structure Message where
  role : Role
  content : String
  toolCalls : Option (List ToolCall) := none
  toolCallId : Option String := none
deriving DecidableEq, Repr

/-- A pending `pending_human_prompt` record. -/
structure HumanPrompt where
  prompt : String
  metadata : Option String := none
deriving DecidableEq, Repr

/-- A pending `pending_human_select` record. -/
structure HumanSelect where
  prompt : String
  options : List String
  multi : Bool := false
  metadata : Option String := none
deriving DecidableEq, Repr

/-- Phase tag of the runtime context passed between steps. -/
inductive Phase where
  | userInput
  | llmResult
  | toolResult
  | humanInput
  | errorRecovery
deriving DecidableEq, Repr

/-- Runtime context passed from one step to the next.  Only the fields the
verified routines inspect are modelled; `payload` details that no modelled
routine reads are abstracted into `payloadTag`. -/
structure RuntimeContext where
  phase : Phase
  payloadTag : String := ""
deriving DecidableEq, Repr

/-- The per-session agent state (`AgentState` of `@lobechat/agent-runtime`),
with the fields read or written by the modelled routines. -/
structure AgentState where
  sessionId : String
  status : AgentStatus
  stepCount : Nat
  messages : List Message
  maxSteps : Option Nat := none
  costLimit : Option CostLimit := none
  cost : Option Cost := none
  pendingToolsCalling : Option (List ToolCall) := none
  pendingHumanPrompt : Option HumanPrompt := none
  pendingHumanSelect : Option HumanSelect := none
  lastModified : String := ""
deriving DecidableEq, Repr

/-! ## `shouldContinueExecution` (execute-step route, `src/unnamed/part_000`)

Direct translation of the JavaScript:

* `state.maxSteps && state.stepCount >= state.maxSteps` — `maxSteps` is
  truthy only when present and non-zero;
* `state.cost?.total >= state.costLimit.maxTotalCost` — optional chaining:
  when `cost` is absent the comparison is `undefined >= x`, which is false;
* the cost-limit branch returns from inside the `if`, so when it is taken
  the `!context` check below it is never reached.
-/

/-- JS truthiness of `state.maxSteps` (a number: `0` is falsy). -/
def maxStepsTruthy (s : AgentState) : Bool :=
  match s.maxSteps with
  | some m => m != 0
  | none => false

/-- Value of `state.maxSteps` when present (`0` otherwise; only read under
`maxStepsTruthy`). -/
def maxStepsVal (s : AgentState) : Nat :=
  s.maxSteps.getD 0

/-- JS `state.cost?.total >= bound` (false when `cost` is absent). -/
def costTotalGe (s : AgentState) (bound : Rat) : Bool :=
  match s.cost with
  | some c => bound ≤ c.total
  | none => false

/-- `shouldContinueExecution(state, context)` of the execute-step route. -/
def shouldContinueExecution (state : AgentState) (context : Option RuntimeContext) : Bool :=
  if state.status = AgentStatus.done then false
  else if state.status = AgentStatus.waitingForHumanInput then false
  else if state.status = AgentStatus.error then false
  else if state.status = AgentStatus.interrupted then false
  else if maxStepsTruthy state && decide (maxStepsVal state ≤ state.stepCount) then false
  else
    match state.costLimit with
    | some cl =>
        if costTotalGe state cl.maxTotalCost then cl.onExceeded != OnExceeded.stop
        else if context.isNone then false else true
    | none => if context.isNone then false else true

/-- The route schedules the next step when `shouldContinue && !forceComplete`
(step 10 of the `POST` handler). -/
def schedulesNextStep (state : AgentState) (context : Option RuntimeContext)
    (forceComplete : Bool) : Bool :=
  shouldContinueExecution state context && !forceComplete

/-- The continuation condition exactly as the specification states it
(spec §4.5 step 8, claim C1): a single conjunction in which the presence of
`next_context` is always required. -/
def specShouldSchedule (state : AgentState) (context : Option RuntimeContext)
    (forceComplete : Bool) : Bool :=
  (state.status != AgentStatus.done) &&
  (state.status != AgentStatus.waitingForHumanInput) &&
  (state.status != AgentStatus.error) &&
  (state.status != AgentStatus.interrupted) &&
  !(maxStepsTruthy state && decide (maxStepsVal state ≤ state.stepCount)) &&
  (match state.costLimit with
   | some cl => !(costTotalGe state cl.maxTotalCost) || cl.onExceeded != OnExceeded.stop
   | none => true) &&
  context.isSome &&
  !forceComplete

/-- Amended continuation condition: when the cost-limit branch fires the code
returns without ever consulting `next_context`. -/
def amendedShouldSchedule (state : AgentState) (context : Option RuntimeContext)
    (forceComplete : Bool) : Bool :=
  (state.status != AgentStatus.done) &&
  (state.status != AgentStatus.waitingForHumanInput) &&
  (state.status != AgentStatus.error) &&
  (state.status != AgentStatus.interrupted) &&
  !(maxStepsTruthy state && decide (maxStepsVal state ≤ state.stepCount)) &&
  (match state.costLimit with
   | some cl =>
       if costTotalGe state cl.maxTotalCost then cl.onExceeded != OnExceeded.stop
       else context.isSome
   | none => context.isSome) &&
  !forceComplete

/-- A state whose cost already exceeds its limit with `on_exceeded =
"continue"`, and with no next context. -/
def cexStateC1 : AgentState :=
  { sessionId := "s1"
    status := AgentStatus.running
    stepCount := 1
    messages := []
    costLimit := some { maxTotalCost := 0, onExceeded := OnExceeded.continueRun }
    cost := some { total := 1 } }

/-! ## `QueueService.calculateDelay` -/

/-- Task priority. -/
inductive Priority where
  | high
  | normal
  | low
deriving DecidableEq, Repr

/-- `QueueService.calculateDelay` (`QueueService.ts`): base delay per
priority, `+1000` for tool calls, `+min(stepIndex*1000, 10000)` for errors. -/
def calculateDelay (hasErrors hasToolCalls : Bool) (priority : Priority)
    (stepIndex : Nat) : Nat :=
  let base : Nat :=
    match priority with
    | Priority.high => 200
    | Priority.low => 5000
    | Priority.normal => 1000
  let withTools := if hasToolCalls then base + 1000 else base
  if hasErrors then withTools + min (stepIndex * 1000) 10000 else withTools

/-! ## Theorems for claims C1 and C2 -/

/-- C1, counterexample: for the state `cexStateC1` (cost already at its limit,
`on_exceeded = "continue"`) with no next context and no `force_complete`, the
execute-step route schedules a next step although the claim's conjunction —
which always requires `next_context` to be present — evaluates to false.  The
cost-limit branch of `shouldContinueExecution` returns before the context
check is reached. -/
theorem schedulesNextStep_cex_nextContext :
    schedulesNextStep cexStateC1 none false = true ∧
    specShouldSchedule cexStateC1 none false = false := by
  constructor <;> decide

/-- C1, amended: the route schedules a next step iff the state's status is
none of done / waiting_for_human_input / error / interrupted, the (truthy)
`max_steps` bound is not reached, the request did not carry
`force_complete = true`, and — when `cost_limit` is set and `cost.total`
has reached `max_total_cost` — `on_exceeded ≠ "stop"` (with `next_context`
then irrelevant), while in every other case `next_context` must be present. -/
theorem schedulesNextStep_amended (s : AgentState) (c : Option RuntimeContext)
    (f : Bool) : schedulesNextStep s c f = amendedShouldSchedule s c f := by
  unfold schedulesNextStep shouldContinueExecution amendedShouldSchedule
  cases hs : s.status <;> cases hcl : s.costLimit <;> cases c <;> cases f <;>
    simp [hs, hcl] <;> rfl

/-- C2: `calculateDelay` is the pure function with base 200/1000/5000 for
high/normal/low priority, plus 1000 when there are tool calls, plus
`min(step_index*1000, 10000)` when there are errors; in particular the six
listed evaluations hold. -/
theorem calculateDelay_spec :
    (∀ he ht p si, calculateDelay he ht p si =
      (match p with
       | Priority.high => 200
       | Priority.normal => 1000
       | Priority.low => 5000)
      + (if ht then 1000 else 0)
      + (if he then min (si * 1000) 10000 else 0)) ∧
    (∀ si, calculateDelay false false Priority.high si = 200) ∧
    (∀ si, calculateDelay false false Priority.normal si = 1000) ∧
    (∀ si, calculateDelay false false Priority.low si = 5000) ∧
    (∀ si, calculateDelay false true Priority.normal si = 2000) ∧
    calculateDelay true false Priority.normal 3 = 4000 ∧
    calculateDelay true false Priority.normal 20 = 11000 := by
  refine ⟨?_, fun si => rfl, fun si => rfl, fun si => rfl, fun si => rfl,
    by decide, by decide⟩
  intro he ht p si
  cases p <;> cases he <;> cases ht <;> simp [calculateDelay]

/-! ## Streaming executors (`StreamingExecutors.ts`)

Executors are embedded as pure functions; the event publications performed
through `StreamEventManager` are collected in the `published` list of the
result (`publishStreamEvent` appends an event with the given `type`,
`publishStreamChunk` appends an event of type `"stream_chunk"` whose data is
the chunk payload — behaviour pinned by `StreamEventManager.test.ts`).
A JavaScript `throw`/rejection of the executor itself is an `Except.error`. -/

/-- Result object of the mock tool execution: `{args, message, success,
toolName}`.  `args` holds the JSON text of the parsed argument object. -/
structure ToolResult where
  args : String
  message : String
  success : Bool
  toolName : String
deriving DecidableEq, Repr

/-- One streamed LLM chunk, as decoded from the model stream. -/
inductive LlmChunk where
  | text (s : String)
  | toolCalls (l : List ToolCall)
deriving DecidableEq, Repr

/-- Payload of a published or returned event: a JS object literal with the
fields the modelled code writes (absent fields are `none`). -/
structure EventData where
  phase : Option String := none
  requiresApproval : Option Bool := none
  chunkType : Option String := none
  messageId : Option String := none
  content : Option String := none
  fullContent : Option String := none
  finalContent : Option String := none
  toolCalls : Option (List ToolCall) := none
  pendingToolsCalling : Option (List ToolCall) := none
  error : Option String := none
  toolCall : Option ToolCall := none
  toolName : Option String := none
  result : Option ToolResult := none
  executionTime : Option Nat := none
  reason : Option String := none
  reasonDetail : Option String := none
  rejectionReason : Option String := none
  status : Option AgentStatus := none
  finalState : Option AgentState := none
deriving DecidableEq, Repr

/-- One event appended to the session's stream by `publishStreamEvent` /
`publishStreamChunk`. -/
structure PubEvent where
  type : String
  stepIndex : Nat
  data : EventData
deriving DecidableEq, Repr

/-- One event of the executor's returned `events` list. -/
structure AgentEvent where
  type : String
  id : Option String := none
  chunk : Option LlmChunk := none
  result : Option ToolResult := none
  error : Option String := none
  reason : Option String := none
  reasonDetail : Option String := none
  pendingToolsCalling : Option (List ToolCall) := none
  toolCalls : Option (List ToolCall) := none
  sessionId : Option String := none
  finalState : Option AgentState := none
deriving DecidableEq, Repr

/-- `{events, newState, nextContext?}` returned by an executor, together with
the events it published to the stream while running. -/
structure ExecResult where
  published : List PubEvent
  events : List AgentEvent
  newState : AgentState
  nextContext : Option RuntimeContext
deriving DecidableEq, Repr

/-- Canonical JSON text of a mock tool result (`JSON.stringify(result)`,
key order as constructed in the source). -/
def ToolResult.stringify (r : ToolResult) : String :=
  "\x7b\"args\":" ++ r.args ++ ",\"message\":\"" ++ r.message ++
    "\",\"success\":" ++ (if r.success then "true" else "false") ++
    ",\"toolName\":\"" ++ r.toolName ++ "\"\x7d"

/-- `createStreamingToolExecutor`: publishes `step_start`, parses the tool
call's arguments (`parsedArgs` is the outcome of `JSON.parse`, `.ok` giving
the canonical text of the parsed object), runs the mock tool, appends a
`tool` message and returns a `tool_result` context; any fault inside the
`try` is caught and turned into an `error` event with the state unchanged. -/
def createStreamingToolExecutor (stepIndex : Nat) (toolCall : ToolCall)
    (parsedArgs : Except String String) (execMillis : Nat)
    (state : AgentState) : Except String ExecResult :=
  let startEvent : PubEvent :=
    { type := "step_start", stepIndex
      data := { phase := some "tool_execution", toolCall := some toolCall
                toolName := some toolCall.function.name } }
  match parsedArgs with
  | Except.error e =>
      Except.ok
        { published :=
            [startEvent,
             { type := "error", stepIndex
               data := { error := some e, phase := some "tool_execution"
                         toolCall := some toolCall } }]
          events := [{ type := "error", error := some e }]
          newState := state
          nextContext := none }
  | Except.ok args =>
      let result : ToolResult :=
        { args
          message := "Mock execution of tool " ++ toolCall.function.name ++
            " with args: " ++ args
          success := true
          toolName := toolCall.function.name }
      let newState :=
        { state with
            messages := state.messages ++
              [{ role := Role.tool, content := result.stringify
                 toolCallId := some toolCall.id }] }
      Except.ok
        { published :=
            [startEvent,
             { type := "step_complete", stepIndex
               data := { executionTime := some execMillis
                         phase := some "tool_execution"
                         result := some result, toolCall := some toolCall } }]
          events := [{ type := "tool_result", id := some toolCall.id
                       result := some result }]
          newState
          nextContext := some { phase := Phase.toolResult } }

/-- Chunk-processing loop of the LLM executor: accumulates `content` and
`toolCalls`, publishes a `stream_chunk` per non-empty text chunk and per
tool-call chunk, and records one `llm_stream` event per chunk. -/
def llmProcessChunks (stepIndex : Nat) (messageId : String) :
    List LlmChunk → String → List ToolCall →
    String × List ToolCall × List PubEvent × List AgentEvent
  | [], content, toolCalls => (content, toolCalls, [], [])
  | LlmChunk.text s :: rest, content, toolCalls =>
      let content' := content ++ s
      let pubs :=
        if s = "" then ([] : List PubEvent)
        else
          [{ type := "stream_chunk", stepIndex
             data := { chunkType := some "text", content := some s
                       fullContent := some content'
                       messageId := some messageId } }]
      let (c, t, ps, es) := llmProcessChunks stepIndex messageId rest content' toolCalls
      (c, t, pubs ++ ps, { type := "llm_stream", chunk := some (LlmChunk.text s) } :: es)
  | LlmChunk.toolCalls l :: rest, content, _ =>
      let pub : PubEvent :=
        { type := "stream_chunk", stepIndex
          data := { chunkType := some "tool_calls", messageId := some messageId
                    toolCalls := some l } }
      let (c, t, ps, es) := llmProcessChunks stepIndex messageId rest content l
      (c, t, pub :: ps, { type := "llm_stream", chunk := some (LlmChunk.toolCalls l) } :: es)

/-- `createStreamingLLMExecutor`: publishes `stream_start`, consumes the
model stream (`streamOutcome` is the outcome of reading it), publishes the
chunks and `stream_end`, appends an assistant message, and returns an
`llm_result` context; a stream fault publishes an `error` event and
re-raises. -/
def createStreamingLLMExecutor (stepIndex : Nat) (messageId : String)
    (streamOutcome : Except String (List LlmChunk))
    (state : AgentState) : Except String ExecResult :=
  let startEvent : PubEvent :=
    { type := "stream_start", stepIndex
      data := { messageId := some messageId } }
  match streamOutcome with
  | Except.error e => Except.error e
  | Except.ok chunks =>
      let (content, toolCalls, pubs, chunkEvents) :=
        llmProcessChunks stepIndex messageId chunks "" []
      let endEvent : PubEvent :=
        { type := "stream_end", stepIndex
          data := { finalContent := some content, messageId := some messageId
                    toolCalls := some toolCalls } }
      let newState :=
        { state with
            messages := state.messages ++
              [{ role := Role.assistant, content
                 toolCalls := if toolCalls.length > 0 then some toolCalls else none }] }
      Except.ok
        { published := startEvent :: pubs ++ [endEvent]
          events := chunkEvents ++
            [{ type := "llm_result", toolCalls := some toolCalls }]
          newState
          nextContext := some { phase := Phase.llmResult } }

/-- `createStreamingHumanApprovalExecutor`: publishes a `step_start` event
with phase `human_approval`, moves the state to `waiting_for_human_input`
with `pending_tools_calling` stored, publishes a `stream_chunk` of
`chunk_type = tool_calls`, and returns `human_approve_required` and
`tool_pending` events with no next context. -/
def createStreamingHumanApprovalExecutor (sessionId : String) (stepIndex : Nat)
    (pendingToolsCalling : List ToolCall) (now : String)
    (state : AgentState) : ExecResult :=
  let newState :=
    { state with
        lastModified := now
        status := AgentStatus.waitingForHumanInput
        pendingToolsCalling := some pendingToolsCalling }
  { published :=
      [{ type := "step_start", stepIndex
         data := { pendingToolsCalling := some pendingToolsCalling
                   phase := some "human_approval"
                   requiresApproval := some true } },
       { type := "stream_chunk", stepIndex
         data := { chunkType := some "tool_calls", messageId := some sessionId
                   toolCalls := some pendingToolsCalling } }]
    events :=
      [{ type := "human_approve_required"
         pendingToolsCalling := some pendingToolsCalling
         sessionId := some newState.sessionId },
       { type := "tool_pending", toolCalls := some pendingToolsCalling }]
    newState
    nextContext := none }

/-- `createStreamingFinishExecutor`: publishes `step_complete` with the
reason, moves the state to `done`, returns one `done` event and no next
context. -/
def createStreamingFinishExecutor (stepIndex : Nat)
    (reason reasonDetail : String) (now : String)
    (state : AgentState) : ExecResult :=
  let newState := { state with lastModified := now, status := AgentStatus.done }
  { published :=
      [{ type := "step_complete", stepIndex
         data := { finalState := some { state with status := AgentStatus.done }
                   phase := some "execution_complete"
                   reason := some reason, reasonDetail := some reasonDetail } }]
    events :=
      [{ type := "done", finalState := some newState, reason := some reason
         reasonDetail := some reasonDetail }]
    newState
    nextContext := none }

/-! ## The rejection branch of the execute-step route and invariant I1 -/

/-- Rejection branch of `POST /execute-step` (`src/unnamed/part_000`): when
`rejectionReason` is present the route sets `status = "done"` and
`lastModified` on the loaded state and persists it.  No `pending_*` field is
cleared. -/
def rejectionHandler (now : String) (state : AgentState) : AgentState :=
  { state with status := AgentStatus.done, lastModified := now }

/-- Number of `pending_*` fields that are set. -/
def pendingCount (s : AgentState) : Nat :=
  (if s.pendingToolsCalling.isSome then 1 else 0) +
  (if s.pendingHumanPrompt.isSome then 1 else 0) +
  (if s.pendingHumanSelect.isSome then 1 else 0)

/-- Invariant I1 of the spec: `status = waiting_for_human_input` iff exactly
one `pending_*` field is non-null. -/
def invariantI1 (s : AgentState) : Bool :=
  (s.status == AgentStatus.waitingForHumanInput) == (pendingCount s == 1)

/-- A tool call used by concrete counterexamples and witnesses. -/
def cexToolCall : ToolCall :=
  { id := "t1", function := { name := "calc", arguments := "\x7b\"x\":2\x7d" } }

/-- A session state waiting for approval of `cexToolCall`: it satisfies I1. -/
def cexStateWaiting : AgentState :=
  { sessionId := "s1"
    status := AgentStatus.waitingForHumanInput
    stepCount := 1
    messages := []
    pendingToolsCalling := some [cexToolCall] }

/-- A running session state with no pending fields, used as concrete input. -/
def cexStateRunning : AgentState :=
  { sessionId := "s1"
    status := AgentStatus.running
    stepCount := 1
    messages := [] }

/-! ## Theorems for claims C3, C4 and C5 -/

/-- C4: for every `call_tool` instruction and input state, when the tool
execution faults (the argument parse raises), the tool executor returns —
rather than re-raising — a result whose events contain an `error` event,
whose new state is the input state unchanged, and which carries no next
context. -/
theorem toolExecutor_fault_capture (si : Nat) (tc : ToolCall) (e : String)
    (t : Nat) (s : AgentState) :
    ∃ r : ExecResult,
      createStreamingToolExecutor si tc (Except.error e) t s = Except.ok r ∧
      r.newState = s ∧
      (∃ ev ∈ r.events, ev.type = "error") ∧
      r.nextContext = none := by
  refine ⟨_, rfl, rfl, ⟨_, List.mem_cons_self _ _, rfl⟩, rfl⟩

/-- C5, counterexample: at a concrete instruction and state, the
human-approval executor publishes exactly a `step_start` and a
`stream_chunk` event — no published (or returned) event has type
`human_approval_request`, contradicting the claim. -/
theorem humanApproval_cex_noRequestEvent :
    ((createStreamingHumanApprovalExecutor "s1" 0 [cexToolCall] "t0"
        cexStateRunning).published.map PubEvent.type =
      ["step_start", "stream_chunk"]) ∧
    (∀ ev ∈ (createStreamingHumanApprovalExecutor "s1" 0 [cexToolCall] "t0"
        cexStateRunning).published, ev.type ≠ "human_approval_request") ∧
    (∀ ev ∈ (createStreamingHumanApprovalExecutor "s1" 0 [cexToolCall] "t0"
        cexStateRunning).events, ev.type ≠ "human_approval_request") := by
  refine ⟨rfl, ?_, ?_⟩ <;> decide

/-- C5, amended: for every `request_human_approve` instruction and input
state, the executor returns a new state with
`status = waiting_for_human_input` and `pending_tools_calling` set to the
instruction's tool calls, publishes a `step_start` event of phase
`human_approval` and a `stream_chunk` event of `chunk_type = tool_calls`
carrying those tool calls, returns a `human_approve_required` event in its
result, and returns no next context. -/
theorem humanApproval_amended (sid : String) (si : Nat) (ptc : List ToolCall)
    (now : String) (s : AgentState) :
    ((createStreamingHumanApprovalExecutor sid si ptc now s).newState.status =
      AgentStatus.waitingForHumanInput) ∧
    ((createStreamingHumanApprovalExecutor sid si ptc now s).newState.pendingToolsCalling =
      some ptc) ∧
    (∃ ev ∈ (createStreamingHumanApprovalExecutor sid si ptc now s).published,
      ev.type = "step_start" ∧ ev.data.phase = some "human_approval") ∧
    (∃ ev ∈ (createStreamingHumanApprovalExecutor sid si ptc now s).published,
      ev.type = "stream_chunk" ∧ ev.data.chunkType = some "tool_calls" ∧
        ev.data.toolCalls = some ptc) ∧
    (∃ ev ∈ (createStreamingHumanApprovalExecutor sid si ptc now s).events,
      ev.type = "human_approve_required" ∧
        ev.pendingToolsCalling = some ptc) ∧
    (createStreamingHumanApprovalExecutor sid si ptc now s).nextContext = none := by
  refine ⟨rfl, rfl, ⟨_, List.mem_cons_self _ _, rfl, rfl⟩,
    ⟨_, List.mem_cons_of_mem _ (List.mem_cons_self _ _), rfl, rfl, rfl⟩,
    ⟨_, List.mem_cons_self _ _, rfl, rfl⟩, rfl⟩

/-- C3, counterexample: the waiting state `cexStateWaiting` satisfies I1, but
after the rejection branch of the execute-step route (which sets
`status = "done"` without clearing `pending_tools_calling`) the committed
state violates I1. -/
theorem rejection_cex_breaksI1 :
    invariantI1 cexStateWaiting = true ∧
    invariantI1 (rejectionHandler "t1" cexStateWaiting) = false := by
  constructor <;> rfl

/-- C3, amended: each of the four executors, applied to a state with no
`pending_*` field set and status other than `waiting_for_human_input` (the
normal running precondition, under which I1 holds), produces a state
satisfying I1; the rejection branch, by contrast, does not preserve I1
(see the counterexample). -/
theorem executors_preserve_I1 (s : AgentState)
    (hp : s.pendingToolsCalling = none)
    (hq : s.pendingHumanPrompt = none)
    (hr : s.pendingHumanSelect = none)
    (hw : s.status ≠ AgentStatus.waitingForHumanInput) :
    (∀ sid si ptc now,
      invariantI1 ((createStreamingHumanApprovalExecutor sid si ptc now s).newState) = true) ∧
    (∀ si tc pa t r, createStreamingToolExecutor si tc pa t s = Except.ok r →
      invariantI1 r.newState = true) ∧
    (∀ si mid so r, createStreamingLLMExecutor si mid so s = Except.ok r →
      invariantI1 r.newState = true) ∧
    (∀ si re rd now,
      invariantI1 ((createStreamingFinishExecutor si re rd now s).newState) = true) := by
  refine ⟨?_, ?_, ?_, ?_⟩
  · intro sid si ptc now
    simp [createStreamingHumanApprovalExecutor, invariantI1, pendingCount, hq, hr]
  · intro si tc pa t r h
    cases pa with
    | error e =>
        cases h
        simp [invariantI1, pendingCount, hp, hq, hr, beq_iff_eq, hw]
    | ok args =>
        cases h
        simp [invariantI1, pendingCount, hp, hq, hr, beq_iff_eq, hw]
  · intro si mid so r h
    cases so with
    | error e => cases h
    | ok chunks =>
        simp only [createStreamingLLMExecutor] at h
        cases h
        simp [invariantI1, pendingCount, hp, hq, hr, beq_iff_eq, hw]
  · intro si re rd now
    simp [createStreamingFinishExecutor, invariantI1, pendingCount, hp, hq, hr]

/-- C3, witness for the amended theorem: the clean running state
`cexStateRunning` satisfies the hypotheses, and the approval and finish
executors started from it commit states satisfying I1. -/
theorem executors_preserve_I1_witness :
    invariantI1 ((createStreamingHumanApprovalExecutor "s1" 0 [cexToolCall]
      "t0" cexStateRunning).newState) = true ∧
    invariantI1 ((createStreamingFinishExecutor 0 "completed" "ok" "t0"
      cexStateRunning).newState) = true :=
  ⟨(executors_preserve_I1 cexStateRunning rfl rfl rfl (by decide)).1 "s1" 0
      [cexToolCall] "t0",
   (executors_preserve_I1 cexStateRunning rfl rfl rfl (by decide)).2.2.2 0
      "completed" "ok" "t0"⟩

/-! ## `DurableLobeChatAgent.runner` -/

/-- `modelRuntimeConfig` of the agent configuration. -/
structure ModelRuntimeConfig where
  model : String
  provider : String
deriving DecidableEq, Repr

/-- `DurableAgentConfig` of `DurableLobeChatAgent`. -/
structure DurableAgentConfig where
  sessionId : String
  userId : Option String := none
  modelRuntimeConfig : Option ModelRuntimeConfig := none
deriving DecidableEq, Repr

/-- Payload of a `call_llm` instruction (`model`/`provider` are read through
optional chaining and may be undefined). -/
structure LlmPayload where
  messages : List Message
  model : Option String
  provider : Option String
deriving DecidableEq, Repr

/-- The instruction union returned by a runner. -/
inductive AgentInstruction where
  | callLlm (payload : LlmPayload)
  | callTool (toolCall : ToolCall)
  | requestHumanApprove (pendingToolsCalling : List ToolCall)
  | finish (reason : String) (reasonDetail : String)
deriving DecidableEq, Repr

/-- Whether an instruction is a `call_llm`. -/
def AgentInstruction.isCallLlm : AgentInstruction → Bool
  | AgentInstruction.callLlm _ => true
  | _ => false

/-- The source string of a phase tag. -/
def Phase.str : Phase → String
  | Phase.userInput => "user_input"
  | Phase.llmResult => "llm_result"
  | Phase.toolResult => "tool_result"
  | Phase.humanInput => "human_input"
  | Phase.errorRecovery => "error_recovery"

/-- `DurableLobeChatAgent.runner`: a switch on `context.phase` alone —
`user_input` calls the LLM, `llm_result` finishes with reason `completed`,
and every other phase falls to the default branch finishing with reason
`error_recovery`. -/
def runner (config : DurableAgentConfig) (context : RuntimeContext)
    (state : AgentState) : AgentInstruction :=
  match context.phase with
  | Phase.userInput =>
      AgentInstruction.callLlm
        { messages := state.messages
          model := config.modelRuntimeConfig.map ModelRuntimeConfig.model
          provider := config.modelRuntimeConfig.map ModelRuntimeConfig.provider }
  | Phase.llmResult =>
      AgentInstruction.finish "completed" "Simple agent completed successfully"
  | p => AgentInstruction.finish "error_recovery" ("Unknown phase: " ++ p.str)

/-- A concrete agent configuration for counterexamples and witnesses. -/
def cexConfig : DurableAgentConfig :=
  { sessionId := "s1"
    modelRuntimeConfig := some { model := "m", provider := "p" } }

/-! ## Tail of the execute-step route (persist, schedule, respond) -/

/-- `{events, newState, nextContext?}` as returned by `runtime.step`. -/
structure StepOutcome where
  events : List AgentEvent
  newState : AgentState
  nextContext : Option RuntimeContext
deriving DecidableEq, Repr

/-- The JSON body and HTTP status of the execute-step route's response. -/
structure StepResponse where
  httpStatus : Nat
  success : Bool
  completed : Bool
  nextStepScheduled : Bool
  nextStepIndex : Option Nat
  status : AgentStatus
  waitingForHuman : Bool
deriving DecidableEq, Repr

/-- Steps 8–13 of `POST /execute-step` after `runtime.step` returned: the
step result is persisted (first component), then — when
`shouldContinue && !forceComplete` — the next step is scheduled, a failure
of the queue being caught and only recorded as `nextStepScheduled = false`;
the response is built with status 200 and `success = true` in either case. -/
def executeStepTail (stepIndex : Nat) (forceComplete : Bool)
    (stepResult : StepOutcome)
    (scheduleOutcome : Except String String) : AgentState × StepResponse :=
  let persisted := stepResult.newState
  let shouldContinue :=
    shouldContinueExecution stepResult.newState stepResult.nextContext
  let nextStepIndex := stepIndex + 1
  let nextStepScheduled :=
    if shouldContinue && !forceComplete then
      match scheduleOutcome with
      | Except.ok _ => true
      | Except.error _ => false
    else false
  (persisted,
   { httpStatus := 200
     success := true
     completed := stepResult.newState.status == AgentStatus.done
     nextStepScheduled
     nextStepIndex := if nextStepScheduled then some nextStepIndex else none
     status := stepResult.newState.status
     waitingForHuman :=
       stepResult.newState.status == AgentStatus.waitingForHumanInput })

/-! ## Theorems for claims C6 and C10 -/

/-- C6, counterexample: at phase `tool_result` the default runner returns a
`finish` instruction with reason `error_recovery`, not the `call_llm` the
claim states. -/
theorem runner_cex_toolResult :
    runner cexConfig { phase := Phase.toolResult } cexStateRunning =
      AgentInstruction.finish "error_recovery" "Unknown phase: tool_result" ∧
    (runner cexConfig { phase := Phase.toolResult } cexStateRunning).isCallLlm
      = false := by
  constructor <;> rfl

/-- C6, amended: the default runner is a pure function of the context's
phase (and the state's messages): phase `user_input` maps to `call_llm`
with the state's messages and the configured model/provider; phase
`llm_result` — regardless of tool calls — maps to `finish` with reason
`completed`; and every other phase maps to `finish` with reason
`error_recovery`. -/
theorem runner_amended (config : DurableAgentConfig) (c : RuntimeContext)
    (s : AgentState) :
    (c.phase = Phase.userInput →
      runner config c s = AgentInstruction.callLlm
        { messages := s.messages
          model := config.modelRuntimeConfig.map ModelRuntimeConfig.model
          provider := config.modelRuntimeConfig.map ModelRuntimeConfig.provider }) ∧
    (c.phase = Phase.llmResult →
      runner config c s =
        AgentInstruction.finish "completed" "Simple agent completed successfully") ∧
    (c.phase ≠ Phase.userInput → c.phase ≠ Phase.llmResult →
      ∃ detail, runner config c s =
        AgentInstruction.finish "error_recovery" detail) := by
  refine ⟨?_, ?_, ?_⟩
  · intro h
    simp [runner, h]
  · intro h
    simp [runner, h]
  · intro h1 h2
    cases hp : c.phase <;> simp_all [runner]

/-- C6, witness for the amended theorem at concrete inputs. -/
theorem runner_amended_witness :
    runner cexConfig { phase := Phase.userInput } cexStateRunning =
      AgentInstruction.callLlm
        { messages := [], model := some "m", provider := some "p" } :=
  (runner_amended cexConfig { phase := Phase.userInput } cexStateRunning).1 rfl

/-- C10: after the step result is persisted, when the continuation test
passes (and the request did not force completion) but the queue scheduling
throws, the execute-step route swallows the error: the persisted state is
exactly the step result's new state, and the response still has HTTP status
200, `success = true` and `nextStepScheduled = false`. -/
theorem scheduleFailure_swallowed (si : Nat) (sr : StepOutcome) (e : String)
    (h : shouldContinueExecution sr.newState sr.nextContext = true) :
    (executeStepTail si false sr (Except.error e)).1 = sr.newState ∧
    (executeStepTail si false sr (Except.error e)).2.httpStatus = 200 ∧
    (executeStepTail si false sr (Except.error e)).2.success = true ∧
    (executeStepTail si false sr (Except.error e)).2.nextStepScheduled = false := by
  refine ⟨rfl, rfl, rfl, ?_⟩
  simp [executeStepTail, h]

/-- C10, witness: a concrete running step outcome with a next context
satisfies the continuation test, and a queue failure there yields a 200
response with `success = true` and no next step scheduled. -/
theorem scheduleFailure_swallowed_witness :
    (executeStepTail 1 false
      { events := [], newState := cexStateRunning
        nextContext := some { phase := Phase.llmResult } }
      (Except.error "boom")).1 = cexStateRunning ∧
    (executeStepTail 1 false
      { events := [], newState := cexStateRunning
        nextContext := some { phase := Phase.llmResult } }
      (Except.error "boom")).2.httpStatus = 200 ∧
    (executeStepTail 1 false
      { events := [], newState := cexStateRunning
        nextContext := some { phase := Phase.llmResult } }
      (Except.error "boom")).2.success = true ∧
    (executeStepTail 1 false
      { events := [], newState := cexStateRunning
        nextContext := some { phase := Phase.llmResult } }
      (Except.error "boom")).2.nextStepScheduled = false :=
  scheduleFailure_swallowed 1
    { events := [], newState := cexStateRunning
      nextContext := some { phase := Phase.llmResult } } "boom" (by decide)

/-! ## State Store operations (`AgentStateManager`)

The `AgentStateManager` implementation is not among the analysed sources —
only its test suite `AgentStateManager.test.ts` is.  Each operation is
embedded as a function of the outcome of its underlying Redis access
(`Except.error` = the backend failed), returning the operation's own
outcome; the error behaviour of every operation is exactly the one the test
suite asserts. -/

/-- One parsed entry of the bounded step history. -/
structure StepRecord where
  stepIndex : Nat
  executionTime : Nat
  status : AgentStatus
  cost : Rat
deriving DecidableEq, Repr

/-- The per-session metadata record. -/
structure SessionMetadata where
  userId : Option String := none
  createdAt : String
  lastActiveAt : String
  status : AgentStatus
  totalCost : Rat
  totalSteps : Nat
deriving DecidableEq, Repr

/-- Modelled from the spec: `AgentStateManager.loadAgentState` — the
implementation is missing from the sources; per the spec's store contract
and `AgentStateManager.test.ts` (`should handle load errors`) a backend
read failure is re-raised, a missing key yields `null`. -/
def loadAgentState (store : Except String (Option AgentState)) :
    Except String (Option AgentState) :=
  match store with
  | Except.error e => Except.error e
  | Except.ok v => Except.ok v

/-- Modelled from the spec: `AgentStateManager.saveAgentState` — the
implementation is missing from the sources; per the spec's store contract
and the test `should handle save errors` a backend write failure is
re-raised. -/
def saveAgentState (store : Except String Unit) : Except String Unit :=
  match store with
  | Except.error e => Except.error e
  | Except.ok v => Except.ok v

/-- Modelled from the spec: `AgentStateManager.saveStepResult` — the
implementation is missing from the sources; per the spec's store contract
and the test `should handle save step result errors` a pipeline failure is
re-raised. -/
def saveStepResult (store : Except String Unit) : Except String Unit :=
  match store with
  | Except.error e => Except.error e
  | Except.ok v => Except.ok v

/-- Modelled from the spec: `AgentStateManager.getExecutionHistory` — the
implementation is missing from the sources; the test suite
(`should return empty array on error`) pins a backend failure to a caught
exception with an empty-list result, and a successful `lrange` read
(newest first) to the reversed, earliest-first list. -/
def getExecutionHistory (store : Except String (List StepRecord)) :
    Except String (List StepRecord) :=
  match store with
  | Except.error _ => Except.ok []
  | Except.ok l => Except.ok l.reverse

/-- Modelled from the spec: `AgentStateManager.getSessionMetadata` — the
implementation is missing from the sources; the test suite
(`should handle errors gracefully`) pins a backend failure to a caught
exception with a `null` result (as for a missing record). -/
def getSessionMetadata (store : Except String (Option SessionMetadata)) :
    Except String (Option SessionMetadata) :=
  match store with
  | Except.error _ => Except.ok none
  | Except.ok v => Except.ok v

/-- Modelled from the spec: `AgentStateManager.getActiveSessions` — the
implementation is missing from the sources; the test suite
(`should return empty array on error`) pins a backend failure to a caught
exception with an empty-list result. -/
def getActiveSessions (store : Except String (List String)) :
    Except String (List String) :=
  match store with
  | Except.error _ => Except.ok []
  | Except.ok l => Except.ok l

/-! ## Theorems for claim C9 -/

/-- C9, counterexample: on a failing backend, `getExecutionHistory`,
`getSessionMetadata` and `getActiveSessions` do not raise — they return the
defaulted values `[]`, `null` and `[]` respectively, contradicting the
claim that every State Store operation propagates store failures. -/
theorem stateStore_cex_swallowedFailures :
    getExecutionHistory (Except.error "Redis error") = Except.ok [] ∧
    getSessionMetadata (Except.error "Redis error") = Except.ok none ∧
    getActiveSessions (Except.error "Redis error") = Except.ok [] :=
  ⟨rfl, rfl, rfl⟩

/-- C9, amended: `load_state`, `save_state` and `save_step_result` propagate
backend failures to the caller, while the read-side listing operations
`get_history`, `get_metadata` and `list_active` swallow them, returning the
defaults `[]`, `null` and `[]`; a successful history read is additionally
reversed to earliest-first order. -/
theorem stateStore_amended (e : String) :
    loadAgentState (Except.error e) = Except.error e ∧
    saveAgentState (Except.error e) = Except.error e ∧
    saveStepResult (Except.error e) = Except.error e ∧
    getExecutionHistory (Except.error e) = Except.ok [] ∧
    getSessionMetadata (Except.error e) = Except.ok none ∧
    getActiveSessions (Except.error e) = Except.ok [] ∧
    (∀ l, getExecutionHistory (Except.ok l) = Except.ok l.reverse) ∧
    (∀ v, loadAgentState (Except.ok v) = Except.ok v) :=
  ⟨rfl, rfl, rfl, rfl, rfl, rfl, fun _ => rfl, fun _ => rfl⟩

/-! ## Human-intervention route (`src/unnamed/part_003`) -/

/-- `data.selection` of an intervention request: a single value or an array
(the route normalizes a single value to a one-element array). -/
inductive SelectionData where
  | single (s : String)
  | multiple (l : List String)
deriving DecidableEq, Repr

/-- `Array.isArray(data.selection) ? data.selection : [data.selection]`. -/
def SelectionData.normalize : SelectionData → List String
  | SelectionData.single s => [s]
  | SelectionData.multiple l => l

/-- `data` object of an intervention request. -/
structure InterventionData where
  approvedToolCall : Option ToolCall := none
  input : Option String := none
  selection : Option SelectionData := none
deriving DecidableEq, Repr

/-- Body of a `POST /human-intervention` request. -/
structure InterventionBody where
  sessionId : Option String := none
  action : Option String := none
  data : Option InterventionData := none
  reason : Option String := none
deriving DecidableEq, Repr

/-- The `humanInput` payload carried by a scheduled intervention step. -/
structure HumanInputPayload where
  prompt : Option String := none
  metadata : Option String := none
  response : Option String := none
  options : Option (List String) := none
  selection : Option SelectionData := none
deriving DecidableEq, Repr

/-- `stepParams` handed to `queueService.scheduleImmediateStep`. -/
structure StepParams where
  priority : Priority
  sessionId : String
  stepIndex : Nat
  approvedToolCall : Option ToolCall := none
  rejectionReason : Option String := none
  humanInput : Option HumanInputPayload := none
deriving DecidableEq, Repr

/-- JS truthiness of `data.selection`: an empty string is falsy, an array —
even an empty one — is truthy. -/
def SelectionData.jsTruthy : SelectionData → Bool
  | SelectionData.single s => s ≠ ""
  | SelectionData.multiple _ => true

/-- JS `value || default` for an optional string: the default is substituted
when the value is absent or empty. -/
def jsOrDefault (o : Option String) (d : String) : String :=
  match o with
  | some s => if s = "" then d else s
  | none => d

/-- Outcome of the intervention route: the HTTP error classes it returns,
or success carrying the scheduled step parameters. -/
inductive InterventionResponse where
  | badRequest (msg : String)
  | notFound
  | conflict (msg : String)
  | serverError (msg : String)
  | ok (scheduled : StepParams)
deriving DecidableEq, Repr

/-- `POST /human-intervention`: validate the body, load the state (given
here as `loadedState`), reject with 409 unless the session is waiting for
human input, validate the action against the matching `pending_*` field,
and schedule an immediate high-priority step (`scheduleOutcome` is the
queue call's outcome; its failure is a 500).  The route's validations use
JS truthiness: an empty `sessionId`, `action`, `data.input` or
`data.selection` string is rejected like a missing one, and an empty
`reason` falls back to the default rejection reason. -/
def processIntervention (body : InterventionBody)
    (loadedState : Option AgentState)
    (scheduleOutcome : Except String String) : InterventionResponse :=
  match body.sessionId with
  | none => InterventionResponse.badRequest "sessionId is required"
  | some sessionId =>
    if sessionId = "" then
      InterventionResponse.badRequest "sessionId is required"
    else
    match body.action with
    | none =>
        InterventionResponse.badRequest
          "action is required (approve, reject, input, select)"
    | some action =>
      if action = "" then
        InterventionResponse.badRequest
          "action is required (approve, reject, input, select)"
      else
      match loadedState with
      | none => InterventionResponse.notFound
      | some currentState =>
        if currentState.status ≠ AgentStatus.waitingForHumanInput then
          InterventionResponse.conflict "Session is not waiting for human input"
        else
          let base : StepParams :=
            { priority := Priority.high, sessionId
              stepIndex := currentState.stepCount }
          let paramsOrErr : Except InterventionResponse StepParams :=
            if action = "approve" then
              match body.data.bind InterventionData.approvedToolCall with
              | none =>
                  Except.error (InterventionResponse.badRequest
                    "approvedToolCall is required for approve action")
              | some approvedTool =>
                match currentState.pendingToolsCalling with
                | none =>
                    Except.error (InterventionResponse.conflict
                      "No pending tool calls to approve")
                | some pending =>
                  match pending.find? (fun tool => tool.id == approvedTool.id) with
                  | none =>
                      Except.error (InterventionResponse.badRequest
                        "Approved tool call not found in pending list")
                  | some _ =>
                      Except.ok { base with approvedToolCall := some approvedTool }
            else if action = "reject" then
              match currentState.pendingToolsCalling with
              | none =>
                  Except.error (InterventionResponse.conflict
                    "No pending tool calls to reject")
              | some _ =>
                  Except.ok { base with
                    rejectionReason :=
                      some (jsOrDefault body.reason
                        "Tool call rejected by user") }
            else if action = "input" then
              match body.data.bind InterventionData.input with
              | none =>
                  Except.error (InterventionResponse.badRequest
                    "input is required for input action")
              | some input =>
                if input = "" then
                  Except.error (InterventionResponse.badRequest
                    "input is required for input action")
                else
                match currentState.pendingHumanPrompt with
                | none =>
                    Except.error (InterventionResponse.conflict
                      "No pending human prompt to respond to")
                | some pending =>
                    Except.ok { base with
                      humanInput := some
                        { metadata := pending.metadata
                          prompt := some pending.prompt
                          response := some input } }
            else if action = "select" then
              match body.data.bind InterventionData.selection with
              | none =>
                  Except.error (InterventionResponse.badRequest
                    "selection is required for select action")
              | some sel =>
                if sel.jsTruthy = false then
                  Except.error (InterventionResponse.badRequest
                    "selection is required for select action")
                else
                match currentState.pendingHumanSelect with
                | none =>
                    Except.error (InterventionResponse.conflict
                      "No pending human selection to respond to")
                | some pending =>
                  let selection := sel.normalize
                  let invalidSelections :=
                    selection.filter (fun s => !(pending.options.contains s))
                  if invalidSelections.length > 0 then
                    Except.error (InterventionResponse.badRequest
                      "Invalid selection options")
                  else
                    Except.ok { base with
                      humanInput := some
                        { metadata := pending.metadata
                          options := some pending.options
                          prompt := some pending.prompt
                          selection := some
                            (if pending.multi then
                               SelectionData.multiple selection
                             else SelectionData.single (selection.headD "")) } }
            else
              Except.error (InterventionResponse.badRequest
                ("Unknown action: " ++ action ++
                  ". Supported actions: approve, reject, input, select"))
          match paramsOrErr with
          | Except.error resp => resp
          | Except.ok stepParams =>
            match scheduleOutcome with
            | Except.error _ =>
                InterventionResponse.serverError
                  "Failed to schedule execution after human intervention"
            | Except.ok _ => InterventionResponse.ok stepParams

/-! ## Theorem for claim C7 -/

/-- C7: the intervention route answers 409 whenever the loaded state is not
waiting for human input; for `select` it answers 400 whenever some submitted
selection is not among the pending options; for `approve` it answers 400
whenever the approved id is not among the pending tool calls; and on every
valid action it schedules an immediate high-priority step at the state's
step count carrying the payload matching the action. -/
theorem processIntervention_spec (body : InterventionBody) (st : AgentState)
    (sched : Except String String) :
    (∀ sid act, body.sessionId = some sid → sid ≠ "" →
      body.action = some act → act ≠ "" →
      st.status ≠ AgentStatus.waitingForHumanInput →
      ∃ m, processIntervention body (some st) sched =
        InterventionResponse.conflict m) ∧
    (body.action = some "select" →
      st.status = AgentStatus.waitingForHumanInput →
      ∀ sid sel ps, body.sessionId = some sid → sid ≠ "" →
        body.data.bind InterventionData.selection = some sel →
        st.pendingHumanSelect = some ps →
        (∃ x ∈ sel.normalize, x ∉ ps.options) →
        ∃ m, processIntervention body (some st) sched =
          InterventionResponse.badRequest m) ∧
    (body.action = some "approve" →
      st.status = AgentStatus.waitingForHumanInput →
      ∀ sid tc pts, body.sessionId = some sid → sid ≠ "" →
        body.data.bind InterventionData.approvedToolCall = some tc →
        st.pendingToolsCalling = some pts →
        (∀ q ∈ pts, q.id ≠ tc.id) →
        ∃ m, processIntervention body (some st) sched =
          InterventionResponse.badRequest m) ∧
    (∀ sid tc pts ptool mid, body.sessionId = some sid → sid ≠ "" →
      body.action = some "approve" →
      st.status = AgentStatus.waitingForHumanInput →
      body.data.bind InterventionData.approvedToolCall = some tc →
      st.pendingToolsCalling = some pts →
      pts.find? (fun tool => tool.id == tc.id) = some ptool →
      processIntervention body (some st) (Except.ok mid) =
        InterventionResponse.ok
          { priority := Priority.high, sessionId := sid
            stepIndex := st.stepCount, approvedToolCall := some tc }) ∧
    (∀ sid pts mid, body.sessionId = some sid → sid ≠ "" →
      body.action = some "reject" →
      st.status = AgentStatus.waitingForHumanInput →
      st.pendingToolsCalling = some pts →
      processIntervention body (some st) (Except.ok mid) =
        InterventionResponse.ok
          { priority := Priority.high, sessionId := sid
            stepIndex := st.stepCount
            rejectionReason :=
              some (jsOrDefault body.reason "Tool call rejected by user") }) ∧
    (∀ sid inp hp mid, body.sessionId = some sid → sid ≠ "" →
      body.action = some "input" →
      st.status = AgentStatus.waitingForHumanInput →
      body.data.bind InterventionData.input = some inp → inp ≠ "" →
      st.pendingHumanPrompt = some hp →
      processIntervention body (some st) (Except.ok mid) =
        InterventionResponse.ok
          { priority := Priority.high, sessionId := sid
            stepIndex := st.stepCount
            humanInput := some
              { metadata := hp.metadata, prompt := some hp.prompt
                response := some inp } }) ∧
    (∀ sid sel ps mid, body.sessionId = some sid → sid ≠ "" →
      body.action = some "select" →
      st.status = AgentStatus.waitingForHumanInput →
      body.data.bind InterventionData.selection = some sel →
      sel.jsTruthy = true →
      st.pendingHumanSelect = some ps →
      (∀ x ∈ sel.normalize, x ∈ ps.options) →
      processIntervention body (some st) (Except.ok mid) =
        InterventionResponse.ok
          { priority := Priority.high, sessionId := sid
            stepIndex := st.stepCount
            humanInput := some
              { metadata := ps.metadata, options := some ps.options
                prompt := some ps.prompt
                selection := some
                  (if ps.multi then SelectionData.multiple sel.normalize
                   else SelectionData.single (sel.normalize.headD "")) } }) := by
  refine ⟨?_, ?_, ?_, ?_, ?_, ?_, ?_⟩
  · intro sid act hsid hsidne hact hactne h3
    exact ⟨"Session is not waiting for human input",
      by simp [processIntervention, hsid, hsidne, hact, hactne, h3]⟩
  · intro hact hw sid sel ps hsid hsidne hsel hps hinv
    cases htr : sel.jsTruthy with
    | false =>
        exact ⟨"selection is required for select action",
          by simp [processIntervention, hsid, hsidne, hact, hw, hsel, htr]⟩
    | true =>
        obtain ⟨x, hx, hxo⟩ := hinv
        have hpred : (!decide (x ∈ ps.options)) = true := by simp [hxo]
        have hmem :
            x ∈ sel.normalize.filter (fun s => !decide (s ∈ ps.options)) :=
          List.mem_filter.mpr ⟨hx, hpred⟩
        have hlen :
            0 < (sel.normalize.filter
              (fun s => !decide (s ∈ ps.options))).length :=
          List.length_pos.mpr (List.ne_nil_of_mem hmem)
        exact ⟨"Invalid selection options",
          by simp [processIntervention, hsid, hsidne, hact, hw, hsel, htr,
            hps, hlen]⟩
  · intro hact hw sid tc pts hsid hsidne htc hpts hne
    have hfind : pts.find? (fun tool => tool.id == tc.id) = none :=
      List.find?_eq_none.mpr (fun q hq => by simp [hne q hq])
    exact ⟨"Approved tool call not found in pending list",
      by simp [processIntervention, hsid, hsidne, hact, hw, htc, hpts, hfind]⟩
  · intro sid tc pts ptool mid hsid hsidne hact hw htc hpts hfind
    simp [processIntervention, hsid, hsidne, hact, hw, htc, hpts, hfind]
  · intro sid pts mid hsid hsidne hact hw hpts
    simp [processIntervention, hsid, hsidne, hact, hw, hpts]
  · intro sid inp hp mid hsid hsidne hact hw hinp hinpne hhp
    simp [processIntervention, hsid, hsidne, hact, hw, hinp, hinpne, hhp]
  · intro sid sel ps mid hsid hsidne hact hw hsel htr hps hvalid
    have hnil :
        (sel.normalize.filter (fun s => !decide (s ∈ ps.options))) = [] :=
      List.filter_eq_nil_iff.mpr (fun x hx => by simp [hvalid x hx])
    simp [processIntervention, hsid, hsidne, hact, hw, hsel, htr, hps, hnil]

/-- A concrete approve-intervention request body. -/
def cexBodyApprove : InterventionBody :=
  { sessionId := some "s1"
    action := some "approve"
    data := some { approvedToolCall := some cexToolCall } }

/-- C7, witness: the concrete approve request against a running (not
waiting) state answers 409, and against the waiting state `cexStateWaiting`
it schedules the high-priority step carrying the approved tool call. -/
theorem processIntervention_spec_witness :
    (∃ m, processIntervention cexBodyApprove (some cexStateRunning)
      (Except.ok "mid") = InterventionResponse.conflict m) ∧
    processIntervention cexBodyApprove (some cexStateWaiting)
      (Except.ok "mid") =
      InterventionResponse.ok
        { priority := Priority.high, sessionId := "s1", stepIndex := 1
          approvedToolCall := some cexToolCall } :=
  ⟨(processIntervention_spec cexBodyApprove cexStateRunning
      (Except.ok "mid")).1 "s1" "approve" rfl (by decide) rfl (by decide)
      (by decide),
   (processIntervention_spec cexBodyApprove cexStateWaiting
      (Except.ok "mid")).2.2.2.1 "s1" cexToolCall [cexToolCall] cexToolCall
      "mid" rfl (by decide) rfl rfl rfl rfl rfl⟩

/-! ## SSE endpoint (`src/app/(backend)/api/agent/stream/route.ts`)

The route's `start` callback is embedded as the list of frames it enqueues
before the live subscription: the `connected` frame, then — when
`includeHistory` — the filtered history slice.  JavaScript string comparison
(`a > b`, by UTF-16 code units) is embedded as `jsLtString` over the
characters. -/

/-- Code-unit lexicographic comparison of character lists (JS `<`). -/
def strLtChars : List Char → List Char → Bool
  | [], [] => false
  | [], _ :: _ => true
  | _ :: _, [] => false
  | a :: as, b :: bs =>
      if a < b then true else if b < a then false else strLtChars as bs

/-- JS string comparison `a < b`. -/
def jsLtString (a b : String) : Bool :=
  strLtChars a.data b.data

/-- One event of the stream history, as returned by `getStreamHistory`. -/
structure SseEvent where
  id : String
  type : String
  stepIndex : Nat
  timestamp : Nat
  dataTag : String := ""
deriving DecidableEq, Repr

/-- A frame enqueued on the SSE response. -/
inductive SseFrame where
  | connected (lastEventId : String) (sessionId : String)
  | event (e : SseEvent)
deriving DecidableEq, Repr

/-- `searchParams.get('lastEventId') || '0'` (absent or empty → `"0"`). -/
def effectiveLastEventId (param : Option String) : String :=
  match param with
  | none => "0"
  | some s => if s = "" then "0" else s

/-- The route's history filter:
`!lastEventId || lastEventId === '0' || event.timestamp.toString() > lastEventId`
(the first disjunct is vacuous after the `|| '0'` default). -/
def historyFilter (lastEventId : String) (e : SseEvent) : Bool :=
  lastEventId == "0" || jsLtString lastEventId (toString e.timestamp)

/-- Frames enqueued by the `start` callback before the live subscription:
the `connected` frame first, then — when `includeHistory` — the history
slice (`history` as returned newest-first by `getStreamHistory`), reversed
to chronological order and filtered by `historyFilter`. -/
def sseInitialFrames (sessionId : String) (lastEventIdParam : Option String)
    (includeHistory : Bool) (history : List SseEvent) : List SseFrame :=
  let lastEventId := effectiveLastEventId lastEventIdParam
  SseFrame.connected lastEventId sessionId ::
    (if includeHistory then
       (history.reverse.filter (historyFilter lastEventId)).map SseFrame.event
     else [])

/-- A history event with timestamp 0. -/
def cexSseEventZero : SseEvent :=
  { id := "0-0", type := "step_start", stepIndex := 0, timestamp := 0 }

/-! ## Theorems for claim C8 -/

/-- C8, counterexample: with `lastEventId = "0"` and `includeHistory=true`,
the history event with timestamp 0 is delivered although its timestamp as a
decimal string does not compare strictly greater than the supplied
`lastEventId` — the route's filter bypasses the comparison whenever
`lastEventId` is `"0"`. -/
theorem sse_cex_filterBypass :
    sseInitialFrames "s1" (some "0") true [cexSseEventZero] =
      [SseFrame.connected "0" "s1", SseFrame.event cexSseEventZero] ∧
    jsLtString "0" (toString cexSseEventZero.timestamp) = false := by
  constructor <;> rfl

/-- C8, amended: the first frame after connect is always the `connected`
frame; when `includeHistory=true` the slice delivered is the reverse of the
newest-first history (hence chronological, earliest first, whenever the
store order is newest-first), filtered as follows — every event passes when
the effective `lastEventId` is `"0"` (absent, empty, or supplied as "0"),
and otherwise exactly those events whose decimal timestamp string compares
strictly greater than `lastEventId`. -/
theorem sse_amended (sid : String) (p : Option String) (hist : List SseEvent)
    (hsorted : List.Pairwise (fun a b => b.timestamp < a.timestamp) hist) :
    (∀ ih, (sseInitialFrames sid p ih hist).head? =
      some (SseFrame.connected (effectiveLastEventId p) sid)) ∧
    sseInitialFrames sid p true hist =
      SseFrame.connected (effectiveLastEventId p) sid ::
        (hist.reverse.filter (historyFilter (effectiveLastEventId p))).map
          SseFrame.event ∧
    List.Pairwise (fun a b => a.timestamp < b.timestamp)
      (hist.reverse.filter (historyFilter (effectiveLastEventId p))) ∧
    (effectiveLastEventId p ≠ "0" →
      ∀ e, historyFilter (effectiveLastEventId p) e = true ↔
        jsLtString (effectiveLastEventId p) (toString e.timestamp) = true) ∧
    (effectiveLastEventId p = "0" →
      ∀ e, historyFilter (effectiveLastEventId p) e = true) := by
  refine ⟨fun ih => rfl, rfl, ?_, ?_, ?_⟩
  · refine List.Pairwise.filter _ ?_
    rw [List.pairwise_reverse]
    exact hsorted
  · intro hne e
    simp [historyFilter, hne]
  · intro h0 e
    simp [historyFilter, h0]

/-- C8, witness for the amended theorem: a concrete two-event newest-first
history with `lastEventId = "1"` delivers, after the `connected` frame, only
the event with timestamp 2, in chronological position. -/
theorem sse_amended_witness :
    sseInitialFrames "s1" (some "1") true
      [{ id := "2-0", type := "step_complete", stepIndex := 1, timestamp := 2 },
       { id := "1-0", type := "step_start", stepIndex := 0, timestamp := 1 }] =
      SseFrame.connected "1" "s1" ::
        (([{ id := "2-0", type := "step_complete", stepIndex := 1, timestamp := 2 },
           { id := "1-0", type := "step_start", stepIndex := 0,
             timestamp := 1 }] : List SseEvent).reverse.filter
          (historyFilter "1")).map SseFrame.event :=
  (sse_amended "s1" (some "1")
    [{ id := "2-0", type := "step_complete", stepIndex := 1, timestamp := 2 },
     { id := "1-0", type := "step_start", stepIndex := 0, timestamp := 1 }]
    (by simp)).2.1

end LobeAgent
